import Mathlib

/-!
Verification of the go-ahrs Mahony (PI) complementary orientation filter.

The Go source (`mahony.go`, `ahrs.go`) computes in IEEE float64.  The main
embedding below works over `ℝ` (exact real arithmetic, no rounding); Lean's
convention `x / 0 = 0` stands in for the float division-by-zero cases, which
only arise on the degenerate inputs analysed separately.  A second, small
carrier `FR` (finite real / signed infinity / NaN) is used for the claims that
are specifically about the propagation of non-finite float values.

Go mutates the receiver `*Mahony`; this is modelled by explicit state passing:
each update returns the new `Mahony` value together with the returned
quaternion array.
-/

namespace Ahrs

/-- A `[4]float64` quaternion array, index 0 the scalar part (`[w,x,y,z]`). -/
@[ext] structure Quat4 where
  q0 : ℝ
  q1 : ℝ
  q2 : ℝ
  q3 : ℝ

/-- `invSqrt` (ahrs.go): `return 1 / math.Sqrt(x)`. -/
noncomputable def invSqrt (x : ℝ) : ℝ := 1 / Real.sqrt x

/-- mahony.go: `MahonyDefaultKp = 0.2`. -/
noncomputable def MahonyDefaultKp : ℝ := 0.2

/-- mahony.go: `MahonyDefaultKi = 0.1`. -/
noncomputable def MahonyDefaultKi : ℝ := 0.1

/-- The `Mahony` struct (mahony.go lines 11-17). -/
structure Mahony where
  twoKp : ℝ
  twoKi : ℝ
  integralFBx : ℝ
  integralFBy : ℝ
  integralFBz : ℝ
  SampleFreq : ℝ
  Quaternions : Quat4

/-- `NewMahony` (mahony.go lines 20-28).  The Go struct literal leaves the
`integralFB*` fields at their zero value. -/
noncomputable def NewMahony (kp ki sampleFreq : ℝ) : Mahony :=
  { twoKp := 2 * kp
    twoKi := 2 * ki
    integralFBx := 0
    integralFBy := 0
    integralFBz := 0
    SampleFreq := sampleFreq
    Quaternions := ⟨1, 0, 0, 0⟩ }

/-- `NewDefaultMahony` (mahony.go lines 31-39). -/
noncomputable def NewDefaultMahony (sampleFreq : ℝ) : Mahony :=
  { twoKp := 2 * MahonyDefaultKp
    twoKi := 2 * MahonyDefaultKi
    integralFBx := 0
    integralFBy := 0
    integralFBz := 0
    SampleFreq := sampleFreq
    Quaternions := ⟨1, 0, 0, 0⟩ }

/-- `halfvx = q1*q3 - q0*q2` (mahony.go line 176; same expression at line 94
via the precomputed products). -/
noncomputable def halfvx (q0 q1 q2 q3 : ℝ) : ℝ := q1 * q3 - q0 * q2

/-- `halfvy = q0*q1 + q2*q3` (mahony.go line 177 / 95). -/
noncomputable def halfvy (q0 q1 q2 q3 : ℝ) : ℝ := q0 * q1 + q2 * q3

/-- `halfvz = q0*q0 - 0.5 + q3*q3` (mahony.go line 178 / 96). -/
noncomputable def halfvz (q0 q1 q2 q3 : ℝ) : ℝ := q0 * q0 - 0.5 + q3 * q3

/-- `hx` (mahony.go line 88), computed from the normalised magnetometer. -/
noncomputable def hx (q0 q1 q2 q3 mx my mz : ℝ) : ℝ :=
  2 * (mx * (0.5 - q2 * q2 - q3 * q3) + my * (q1 * q2 - q0 * q3) + mz * (q1 * q3 + q0 * q2))

/-- `hy` (mahony.go line 89). -/
noncomputable def hy (q0 q1 q2 q3 mx my mz : ℝ) : ℝ :=
  2 * (mx * (q1 * q2 + q0 * q3) + my * (0.5 - q1 * q1 - q3 * q3) + mz * (q2 * q3 - q0 * q1))

/-- `bx = math.Sqrt(hx*hx + hy*hy)` (mahony.go line 90). -/
noncomputable def bx (q0 q1 q2 q3 mx my mz : ℝ) : ℝ :=
  Real.sqrt (hx q0 q1 q2 q3 mx my mz * hx q0 q1 q2 q3 mx my mz +
    hy q0 q1 q2 q3 mx my mz * hy q0 q1 q2 q3 mx my mz)

/-- `bz` (mahony.go line 91). -/
noncomputable def bz (q0 q1 q2 q3 mx my mz : ℝ) : ℝ :=
  2 * (mx * (q1 * q3 - q0 * q2) + my * (q2 * q3 + q0 * q1) + mz * (0.5 - q1 * q1 - q2 * q2))

/-- `halfwx` (mahony.go line 97). -/
noncomputable def halfwx (q0 q1 q2 q3 mx my mz : ℝ) : ℝ :=
  bx q0 q1 q2 q3 mx my mz * (0.5 - q2 * q2 - q3 * q3) +
    bz q0 q1 q2 q3 mx my mz * (q1 * q3 - q0 * q2)

/-- `halfwy` (mahony.go line 98). -/
noncomputable def halfwy (q0 q1 q2 q3 mx my mz : ℝ) : ℝ :=
  bx q0 q1 q2 q3 mx my mz * (q1 * q2 - q0 * q3) +
    bz q0 q1 q2 q3 mx my mz * (q0 * q1 + q2 * q3)

/-- `halfwz` (mahony.go line 99). -/
noncomputable def halfwz (q0 q1 q2 q3 mx my mz : ℝ) : ℝ :=
  bx q0 q1 q2 q3 mx my mz * (q0 * q2 + q1 * q3) +
    bz q0 q1 q2 q3 mx my mz * (0.5 - q1 * q1 - q2 * q2)

/-- Mahony `Update6D`, correction block (mahony.go lines 166-203): the
angular rate after integral and proportional feedback.  The Go code updates
the *local* copies `integralFBx/y/z` and adds them to the rate; the locals are
never stored back to the struct, so only the corrected rate escapes this
block. -/
noncomputable def correctedRate6D (m : Mahony) (gx gy gz ax ay az : ℝ) : ℝ × ℝ × ℝ :=
  if ax = 0 ∧ ay = 0 ∧ az = 0 then (gx, gy, gz)
  else
    let q0 := m.Quaternions.q0
    let q1 := m.Quaternions.q1
    let q2 := m.Quaternions.q2
    let q3 := m.Quaternions.q3
    let recipNorm := invSqrt (ax * ax + ay * ay + az * az)
    let axn := ax * recipNorm
    let ayn := ay * recipNorm
    let azn := az * recipNorm
    let hvx := halfvx q0 q1 q2 q3
    let hvy := halfvy q0 q1 q2 q3
    let hvz := halfvz q0 q1 q2 q3
    let halfex := ayn * hvz - azn * hvy
    let halfey := azn * hvx - axn * hvz
    let halfez := axn * hvy - ayn * hvx
    let gx1 := if m.twoKi > 0 then
        gx + (m.integralFBx + m.twoKi * halfex * (1 / m.SampleFreq)) else gx
    let gy1 := if m.twoKi > 0 then
        gy + (m.integralFBy + m.twoKi * halfey * (1 / m.SampleFreq)) else gy
    let gz1 := if m.twoKi > 0 then
        gz + (m.integralFBz + m.twoKi * halfez * (1 / m.SampleFreq)) else gz
    (gx1 + m.twoKp * halfex, gy1 + m.twoKp * halfey, gz1 + m.twoKp * halfez)

/-- Mahony `Update9D`, correction block (mahony.go lines 61-124): gravity and
magnetic-field error, integral and proportional feedback.  As in the 6-axis
case the `integralFB*` locals are never stored back to the struct. -/
noncomputable def correctedRate9D (m : Mahony) (gx gy gz ax ay az mx my mz : ℝ) :
    ℝ × ℝ × ℝ :=
  if ax = 0 ∧ ay = 0 ∧ az = 0 then (gx, gy, gz)
  else
    let q0 := m.Quaternions.q0
    let q1 := m.Quaternions.q1
    let q2 := m.Quaternions.q2
    let q3 := m.Quaternions.q3
    let recipNorm := invSqrt (ax * ax + ay * ay + az * az)
    let axn := ax * recipNorm
    let ayn := ay * recipNorm
    let azn := az * recipNorm
    let recipNormM := invSqrt (mx * mx + my * my + mz * mz)
    let mxn := mx * recipNormM
    let myn := my * recipNormM
    let mzn := mz * recipNormM
    let hwx := halfwx q0 q1 q2 q3 mxn myn mzn
    let hwy := halfwy q0 q1 q2 q3 mxn myn mzn
    let hwz := halfwz q0 q1 q2 q3 mxn myn mzn
    let hvx := halfvx q0 q1 q2 q3
    let hvy := halfvy q0 q1 q2 q3
    let hvz := halfvz q0 q1 q2 q3
    let halfex := (ayn * hvz - azn * hvy) + (myn * hwz - mzn * hwy)
    let halfey := (azn * hvx - axn * hvz) + (mzn * hwx - mxn * hwz)
    let halfez := (axn * hvy - ayn * hvx) + (mxn * hwy - myn * hwx)
    let gx1 := if m.twoKi > 0 then
        gx + (m.integralFBx + m.twoKi * halfex * (1 / m.SampleFreq)) else gx
    let gy1 := if m.twoKi > 0 then
        gy + (m.integralFBy + m.twoKi * halfey * (1 / m.SampleFreq)) else gy
    let gz1 := if m.twoKi > 0 then
        gz + (m.integralFBz + m.twoKi * halfez * (1 / m.SampleFreq)) else gz
    (gx1 + m.twoKp * halfex, gy1 + m.twoKp * halfey, gz1 + m.twoKp * halfez)

/-- Quaternion rate integration (mahony.go lines 205-215 in `Update6D`,
duplicated verbatim at lines 126-136 in `Update9D`): scale the corrected rate
by `0.5 * (1.0 / sampleFreq)`, then apply the first-order componentwise update
using the pre-update components (`qa`, `qb`, `qc` saved copies). -/
noncomputable def preIntegrate (q0 q1 q2 q3 gx gy gz sampleFreq : ℝ) : Quat4 :=
  let gxs := gx * (0.5 * (1 / sampleFreq))
  let gys := gy * (0.5 * (1 / sampleFreq))
  let gzs := gz * (0.5 * (1 / sampleFreq))
  ⟨q0 + (-q1 * gxs - q2 * gys - q3 * gzs),
   q1 + (q0 * gxs + q2 * gzs - q3 * gys),
   q2 + (q0 * gys - q1 * gzs + q3 * gxs),
   q3 + (q0 * gzs + q1 * gys - q2 * gxs)⟩

/-- Quaternion normalisation (mahony.go lines 217-222, duplicated at lines
138-143). -/
noncomputable def normaliseQ (q : Quat4) : Quat4 :=
  let recipNorm := invSqrt (q.q0 * q.q0 + q.q1 * q.q1 + q.q2 * q.q2 + q.q3 * q.q3)
  ⟨q.q0 * recipNorm, q.q1 * recipNorm, q.q2 * recipNorm, q.q3 * recipNorm⟩

/-- The integration-and-normalisation tail shared verbatim by `Update6D`
(lines 205-222) and `Update9D` (lines 126-143). -/
noncomputable def integrateAndNormalise (q0 q1 q2 q3 gx gy gz sampleFreq : ℝ) : Quat4 :=
  normaliseQ (preIntegrate q0 q1 q2 q3 gx gy gz sampleFreq)

/-- `Update6D` (mahony.go lines 149-225).  Returns the updated struct and the
returned quaternion array.  Note the Go function writes only
`m.Quaternions[0..3]` back to the receiver; the `integralFB*` locals are
dropped. -/
noncomputable def Update6D (m : Mahony) (gx gy gz ax ay az : ℝ) : Mahony × Quat4 :=
  let g := correctedRate6D m gx gy gz ax ay az
  let qOut := integrateAndNormalise m.Quaternions.q0 m.Quaternions.q1
    m.Quaternions.q2 m.Quaternions.q3 g.1 g.2.1 g.2.2 m.SampleFreq
  ({ m with Quaternions := qOut }, qOut)

/-- `Update9D` (mahony.go lines 42-146).  Same shape as `Update6D` with the
magnetometer fusion in the correction block. -/
noncomputable def Update9D (m : Mahony) (gx gy gz ax ay az mx my mz : ℝ) : Mahony × Quat4 :=
  let g := correctedRate9D m gx gy gz ax ay az mx my mz
  let qOut := integrateAndNormalise m.Quaternions.q0 m.Quaternions.q1
    m.Quaternions.q2 m.Quaternions.q3 g.1 g.2.1 g.2.2 m.SampleFreq
  ({ m with Quaternions := qOut }, qOut)

/-- Specification-side definition (spec section 4.2 step 6): componentwise
quaternion sum, scalar part first. -/
noncomputable def qadd (p r : Quat4) : Quat4 :=
  ⟨p.q0 + r.q0, p.q1 + r.q1, p.q2 + r.q2, p.q3 + r.q3⟩

/-- Specification-side definition: the Hamilton quaternion product with the
scalar part in component 0, so that component 0 of `qmul p r` is
`p₀r₀ − p·r` and the vector part is `p₀r⃗ + r₀p⃗ + p⃗ × r⃗`. -/
noncomputable def qmul (p r : Quat4) : Quat4 :=
  ⟨p.q0 * r.q0 - p.q1 * r.q1 - p.q2 * r.q2 - p.q3 * r.q3,
   p.q0 * r.q1 + p.q1 * r.q0 + p.q2 * r.q3 - p.q3 * r.q2,
   p.q0 * r.q2 - p.q1 * r.q3 + p.q2 * r.q0 + p.q3 * r.q1,
   p.q0 * r.q3 + p.q1 * r.q2 - p.q2 * r.q1 + p.q3 * r.q0⟩

/-- Specification-side definition (spec section 8, degenerate-input skip): the
pure gyro-integration result — the raw gyro rates scaled by
`0.5/sampleFreq`, integrated by the quaternion-derivative first-order update
`q ← q + q ⊗ (0, gx', gy', gz')`, then normalised. -/
noncomputable def pureGyroResult (q : Quat4) (gx gy gz sampleFreq : ℝ) : Quat4 :=
  normaliseQ (qadd q (qmul q
    ⟨0, gx * (0.5 / sampleFreq), gy * (0.5 / sampleFreq), gz * (0.5 / sampleFreq)⟩))

/-- The componentwise integration step of the source is exactly the first-order
quaternion-derivative update `q + q ⊗ (0, g·0.5/f)` with pre-update components
on the right-hand side. -/
lemma preIntegrate_qmul (q : Quat4) (gx gy gz f : ℝ) :
    preIntegrate q.q0 q.q1 q.q2 q.q3 gx gy gz f =
      qadd q (qmul q ⟨0, gx * (0.5 / f), gy * (0.5 / f), gz * (0.5 / f)⟩) := by
  ext <;> simp only [preIntegrate, qadd, qmul] <;> ring

lemma integrateAndNormalise_pureGyro (q : Quat4) (gx gy gz f : ℝ) :
    integrateAndNormalise q.q0 q.q1 q.q2 q.q3 gx gy gz f = pureGyroResult q gx gy gz f := by
  unfold integrateAndNormalise pureGyroResult
  rw [preIntegrate_qmul]

lemma correctedRate6D_zero_accel (m : Mahony) (gx gy gz : ℝ) :
    correctedRate6D m gx gy gz 0 0 0 = (gx, gy, gz) := by
  simp [correctedRate6D]

lemma correctedRate9D_zero_accel (m : Mahony) (gx gy gz mx my mz : ℝ) :
    correctedRate9D m gx gy gz 0 0 0 mx my mz = (gx, gy, gz) := by
  simp [correctedRate9D]

/-- C9: a call to `Update6D` or `Update9D` leaves the configuration fields
`twoKp`, `twoKi` and `SampleFreq` of the filter unchanged: the struct update at
the end of each Go function writes only the `Quaternions` field. -/
theorem update_preserves_config (m : Mahony) (gx gy gz ax ay az mx my mz : ℝ) :
    ((Update6D m gx gy gz ax ay az).1.twoKp = m.twoKp ∧
     (Update6D m gx gy gz ax ay az).1.twoKi = m.twoKi ∧
     (Update6D m gx gy gz ax ay az).1.SampleFreq = m.SampleFreq) ∧
    ((Update9D m gx gy gz ax ay az mx my mz).1.twoKp = m.twoKp ∧
     (Update9D m gx gy gz ax ay az mx my mz).1.twoKi = m.twoKi ∧
     (Update9D m gx gy gz ax ay az mx my mz).1.SampleFreq = m.SampleFreq) :=
  ⟨⟨rfl, rfl, rfl⟩, ⟨rfl, rfl, rfl⟩⟩

/-- C10: with an exactly-zero accelerometer reading, `Update9D` produces the
same resulting state and return value as `Update6D` on the same state and gyro
rates, for every magnetometer input: the single accelerometer guard skips the
whole correction block, inside which alone the magnetometer is read. -/
theorem update9D_zero_accel_eq_update6D (m : Mahony) (gx gy gz mx my mz : ℝ) :
    Update9D m gx gy gz 0 0 0 mx my mz = Update6D m gx gy gz 0 0 0 := by
  simp only [Update9D, Update6D, correctedRate9D_zero_accel, correctedRate6D_zero_accel]

/-- C3: calling either update with accelerometer `(0,0,0)` applies no
correction: the resulting stored and returned quaternion is exactly the pure
gyro-integration result (raw rates scaled by `0.5/sampleFreq`, first-order
quaternion-derivative update, then normalisation). -/
theorem update_degenerate_accel_pure_gyro (m : Mahony) (gx gy gz mx my mz : ℝ) :
    (Update6D m gx gy gz 0 0 0).2 = pureGyroResult m.Quaternions gx gy gz m.SampleFreq ∧
    (Update6D m gx gy gz 0 0 0).1.Quaternions =
      pureGyroResult m.Quaternions gx gy gz m.SampleFreq ∧
    (Update9D m gx gy gz 0 0 0 mx my mz).2 =
      pureGyroResult m.Quaternions gx gy gz m.SampleFreq ∧
    (Update9D m gx gy gz 0 0 0 mx my mz).1.Quaternions =
      pureGyroResult m.Quaternions gx gy gz m.SampleFreq := by
  refine ⟨?_, ?_, ?_, ?_⟩ <;>
    simp only [Update6D, Update9D, correctedRate6D_zero_accel, correctedRate9D_zero_accel] <;>
    exact integrateAndNormalise_pureGyro m.Quaternions gx gy gz m.SampleFreq

/-- C6: in both updates the corrected angular rate is scaled by
`0.5/sampleFreq` and integrated by the first-order quaternion-derivative
update `q ← q + q ⊗ (0, gx', gy', gz')` (pre-update components on the
right-hand side), before normalisation. -/
theorem update_kinematic_step (m : Mahony) (gx gy gz ax ay az mx my mz : ℝ) :
    (Update6D m gx gy gz ax ay az).2 =
      normaliseQ (qadd m.Quaternions (qmul m.Quaternions
        ⟨0, (correctedRate6D m gx gy gz ax ay az).1 * (0.5 / m.SampleFreq),
            (correctedRate6D m gx gy gz ax ay az).2.1 * (0.5 / m.SampleFreq),
            (correctedRate6D m gx gy gz ax ay az).2.2 * (0.5 / m.SampleFreq)⟩)) ∧
    (Update9D m gx gy gz ax ay az mx my mz).2 =
      normaliseQ (qadd m.Quaternions (qmul m.Quaternions
        ⟨0, (correctedRate9D m gx gy gz ax ay az mx my mz).1 * (0.5 / m.SampleFreq),
            (correctedRate9D m gx gy gz ax ay az mx my mz).2.1 * (0.5 / m.SampleFreq),
            (correctedRate9D m gx gy gz ax ay az mx my mz).2.2 * (0.5 / m.SampleFreq)⟩)) := by
  constructor <;>
    · show normaliseQ (preIntegrate m.Quaternions.q0 m.Quaternions.q1 m.Quaternions.q2
        m.Quaternions.q3 _ _ _ m.SampleFreq) = _
      rw [preIntegrate_qmul]

/-- One call of the public update API: either a 6-axis or a 9-axis update with
arbitrary sensor values. -/
inductive SensorCall where
  | six (gx gy gz ax ay az : ℝ)
  | nine (gx gy gz ax ay az mx my mz : ℝ)

/-- The state after one API call. -/
noncomputable def applyCall (m : Mahony) : SensorCall → Mahony
  | .six gx gy gz ax ay az => (Update6D m gx gy gz ax ay az).1
  | .nine gx gy gz ax ay az mx my mz => (Update9D m gx gy gz ax ay az mx my mz).1

/-- The state after a finite sequence of API calls. -/
noncomputable def applyCalls (m : Mahony) : List SensorCall → Mahony
  | [] => m
  | c :: cs => applyCalls (applyCall m c) cs

lemma applyCall_integralFB (m : Mahony) (c : SensorCall) :
    (applyCall m c).integralFBx = m.integralFBx ∧
    (applyCall m c).integralFBy = m.integralFBy ∧
    (applyCall m c).integralFBz = m.integralFBz := by
  cases c <;> exact ⟨rfl, rfl, rfl⟩

lemma applyCalls_integralFB (cs : List SensorCall) (m : Mahony) :
    (applyCalls m cs).integralFBx = m.integralFBx ∧
    (applyCalls m cs).integralFBy = m.integralFBy ∧
    (applyCalls m cs).integralFBz = m.integralFBz := by
  induction cs generalizing m with
  | nil => exact ⟨rfl, rfl, rfl⟩
  | cons c cs ih =>
    obtain ⟨h1, h2, h3⟩ := ih (applyCall m c)
    obtain ⟨g1, g2, g3⟩ := applyCall_integralFB m c
    exact ⟨h1.trans g1, h2.trans g2, h3.trans g3⟩

/-- C4: a filter constructed with integral gain 0 has an exactly-zero integral
accumulator after any finite sequence of `Update6D`/`Update9D` calls with
arbitrary sensor inputs. -/
theorem windup_prevention (kp sampleFreq : ℝ) (cs : List SensorCall) :
    (applyCalls (NewMahony kp 0 sampleFreq) cs).integralFBx = 0 ∧
    (applyCalls (NewMahony kp 0 sampleFreq) cs).integralFBy = 0 ∧
    (applyCalls (NewMahony kp 0 sampleFreq) cs).integralFBz = 0 := by
  obtain ⟨h1, h2, h3⟩ := applyCalls_integralFB cs (NewMahony kp 0 sampleFreq)
  exact ⟨h1, h2, h3⟩

/-- C1 (code bug): the Go updates copy `m.integralFBx/y/z` into locals, update
the locals, and never store them back — the struct update at the end writes
only `Quaternions`.  At the concrete input `NewMahony(0.2, 0.1, 100)`,
`Update6D(0,0,0, 0,1,0)` the half-angle error is `(1/2, 0, 0)`, so the claim
demands the stored accumulator to grow by `twoKi · (1/2) / 100 ≠ 0`; the code
leaves it at `0`. -/
theorem integral_accumulator_not_persisted :
    (Update6D (NewMahony 0.2 0.1 100) 0 0 0 0 1 0).1.integralFBx = 0 ∧
    (Update6D (NewMahony 0.2 0.1 100) 0 0 0 0 1 0).1.integralFBy = 0 ∧
    (Update6D (NewMahony 0.2 0.1 100) 0 0 0 0 1 0).1.integralFBz = 0 ∧
    (NewMahony 0.2 0.1 100).twoKi * (1 / 2) * (1 / 100) ≠ (0 : ℝ) := by
  refine ⟨rfl, rfl, rfl, ?_⟩
  norm_num [NewMahony]

/-- Sum of squared components, as the source computes it for normalisation. -/
noncomputable def normSq (q : Quat4) : ℝ :=
  q.q0 * q.q0 + q.q1 * q.q1 + q.q2 * q.q2 + q.q3 * q.q3

lemma normSq_nonneg (q : Quat4) : 0 ≤ normSq q :=
  add_nonneg (add_nonneg (add_nonneg (mul_self_nonneg _) (mul_self_nonneg _))
    (mul_self_nonneg _)) (mul_self_nonneg _)

lemma normSq_normaliseQ (p : Quat4) (h : normSq p ≠ 0) : normSq (normaliseQ p) = 1 := by
  have h0 : 0 < normSq p := lt_of_le_of_ne (normSq_nonneg p) (Ne.symm h)
  have hS : Real.sqrt (normSq p) * Real.sqrt (normSq p) = normSq p :=
    Real.mul_self_sqrt (normSq_nonneg p)
  show (p.q0 * (1 / Real.sqrt (normSq p))) * (p.q0 * (1 / Real.sqrt (normSq p))) +
      (p.q1 * (1 / Real.sqrt (normSq p))) * (p.q1 * (1 / Real.sqrt (normSq p))) +
      (p.q2 * (1 / Real.sqrt (normSq p))) * (p.q2 * (1 / Real.sqrt (normSq p))) +
      (p.q3 * (1 / Real.sqrt (normSq p))) * (p.q3 * (1 / Real.sqrt (normSq p))) = 1
  have expand : (p.q0 * (1 / Real.sqrt (normSq p))) * (p.q0 * (1 / Real.sqrt (normSq p))) +
      (p.q1 * (1 / Real.sqrt (normSq p))) * (p.q1 * (1 / Real.sqrt (normSq p))) +
      (p.q2 * (1 / Real.sqrt (normSq p))) * (p.q2 * (1 / Real.sqrt (normSq p))) +
      (p.q3 * (1 / Real.sqrt (normSq p))) * (p.q3 * (1 / Real.sqrt (normSq p))) =
      normSq p * (1 / (Real.sqrt (normSq p) * Real.sqrt (normSq p))) := by
    unfold normSq; ring
  rw [expand, hS, mul_one_div_cancel h]

lemma normSq_preIntegrate (q0 q1 q2 q3 gx gy gz f : ℝ) :
    normSq (preIntegrate q0 q1 q2 q3 gx gy gz f) =
      (q0 * q0 + q1 * q1 + q2 * q2 + q3 * q3) *
      (1 + (gx * (0.5 * (1 / f))) ^ 2 + (gy * (0.5 * (1 / f))) ^ 2 +
        (gz * (0.5 * (1 / f))) ^ 2) := by
  simp only [normSq, preIntegrate]
  ring

lemma integrateAndNormalise_normSq (q0 q1 q2 q3 gx gy gz f : ℝ)
    (h : q0 * q0 + q1 * q1 + q2 * q2 + q3 * q3 ≠ 0) :
    normSq (integrateAndNormalise q0 q1 q2 q3 gx gy gz f) = 1 := by
  unfold integrateAndNormalise
  apply normSq_normaliseQ
  rw [normSq_preIntegrate]
  have h2 : (0 : ℝ) < 1 + (gx * (0.5 * (1 / f))) ^ 2 + (gy * (0.5 * (1 / f))) ^ 2 +
      (gz * (0.5 * (1 / f))) ^ 2 := by positivity
  exact mul_ne_zero h (ne_of_gt h2)

/-- C2 counterexample: at the (publicly reachable — `Quaternions` is an
exported field) filter state with the all-zero quaternion, the non-degenerate
input `gyro (0,0,0)`, `accel (0,0,1)` makes `Update6D` return a quaternion of
norm 0, not 1: the error term vanishes, the integration keeps the zero
quaternion, and normalisation divides by zero. -/
theorem unit_norm_counterexample :
    ¬ normSq (Update6D ⟨0.4, 0.2, 0, 0, 0, 100, ⟨0, 0, 0, 0⟩⟩ 0 0 0 0 0 1).2 = 1 := by
  norm_num [Update6D, correctedRate6D, integrateAndNormalise, preIntegrate, normaliseQ,
    invSqrt, halfvx, halfvy, halfvz, normSq, Real.sqrt_zero, Real.sqrt_one]

/-- C2 amended: for every filter state whose stored quaternion is non-zero and
every non-degenerate input, both updates store a quaternion of norm exactly 1
(real arithmetic; the spec's floating-point tolerance), and the returned
4-array is exactly the stored quaternion. -/
theorem unit_norm_after_update (m : Mahony) (gx gy gz ax ay az mx my mz : ℝ)
    (hq : normSq m.Quaternions ≠ 0)
    (ha : ¬(ax = 0 ∧ ay = 0 ∧ az = 0))
    (hm : ¬(mx = 0 ∧ my = 0 ∧ mz = 0)) :
    (normSq (Update6D m gx gy gz ax ay az).2 = 1 ∧
     (Update6D m gx gy gz ax ay az).2 = (Update6D m gx gy gz ax ay az).1.Quaternions) ∧
    (normSq (Update9D m gx gy gz ax ay az mx my mz).2 = 1 ∧
     (Update9D m gx gy gz ax ay az mx my mz).2 =
       (Update9D m gx gy gz ax ay az mx my mz).1.Quaternions) := by
  refine ⟨⟨?_, rfl⟩, ?_, rfl⟩
  · exact integrateAndNormalise_normSq _ _ _ _ _ _ _ _ hq
  · exact integrateAndNormalise_normSq _ _ _ _ _ _ _ _ hq

/-- Witness for `unit_norm_after_update` at a freshly constructed filter and
the stationary input `gyro (1,2,3)`, `accel (0,0,9.8)`, `mag (1,0,0)`. -/
theorem unit_norm_after_update_witness :
    normSq (NewMahony 0.2 0.1 100).Quaternions ≠ 0 ∧
    ¬((0 : ℝ) = 0 ∧ (0 : ℝ) = 0 ∧ (9.8 : ℝ) = 0) ∧
    ¬((1 : ℝ) = 0 ∧ (0 : ℝ) = 0 ∧ (0 : ℝ) = 0) ∧
    normSq (Update6D (NewMahony 0.2 0.1 100) 1 2 3 0 0 9.8).2 = 1 ∧
    normSq (Update9D (NewMahony 0.2 0.1 100) 1 2 3 0 0 9.8 1 0 0).2 = 1 := by
  have h1 : normSq (NewMahony 0.2 0.1 100).Quaternions ≠ 0 := by
    norm_num [normSq, NewMahony]
  have h2 : ¬((0 : ℝ) = 0 ∧ (0 : ℝ) = 0 ∧ (9.8 : ℝ) = 0) := by norm_num
  have h3 : ¬((1 : ℝ) = 0 ∧ (0 : ℝ) = 0 ∧ (0 : ℝ) = 0) := by norm_num
  have h := unit_norm_after_update (NewMahony 0.2 0.1 100) 1 2 3 0 0 9.8 1 0 0 h1 h2 h3
  exact ⟨h1, h2, h3, h.1.1, h.2.1⟩

lemma invSqrt_one : invSqrt 1 = 1 := by
  simp [invSqrt]

/-- Squared norm of the estimated half-gravity vector: with `S = ‖q‖²` and
`A = q0²+q3²`, `4‖halfv‖² = 4·A·S − 4·A + 1`; for a unit quaternion this is 1,
i.e. `2·halfv` is a unit vector. -/
lemma halfv_normSq (q0 q1 q2 q3 : ℝ) :
    4 * (halfvx q0 q1 q2 q3 * halfvx q0 q1 q2 q3 +
      halfvy q0 q1 q2 q3 * halfvy q0 q1 q2 q3 +
      halfvz q0 q1 q2 q3 * halfvz q0 q1 q2 q3) =
      4 * (q0 * q0 + q3 * q3) * (q0 * q0 + q1 * q1 + q2 * q2 + q3 * q3) -
        4 * (q0 * q0 + q3 * q3) + 1 := by
  simp only [halfvx, halfvy, halfvz]
  ring

lemma integrateAndNormalise_zero_rate (q0 q1 q2 q3 f : ℝ)
    (h : q0 * q0 + q1 * q1 + q2 * q2 + q3 * q3 = 1) :
    integrateAndNormalise q0 q1 q2 q3 0 0 0 f = ⟨q0, q1, q2, q3⟩ := by
  have hpre : preIntegrate q0 q1 q2 q3 0 0 0 f = ⟨q0, q1, q2, q3⟩ := by
    ext <;> simp [preIntegrate]
  unfold integrateAndNormalise
  rw [hpre]
  show Quat4.mk (q0 * invSqrt (q0 * q0 + q1 * q1 + q2 * q2 + q3 * q3))
      (q1 * invSqrt (q0 * q0 + q1 * q1 + q2 * q2 + q3 * q3))
      (q2 * invSqrt (q0 * q0 + q1 * q1 + q2 * q2 + q3 * q3))
      (q3 * invSqrt (q0 * q0 + q1 * q1 + q2 * q2 + q3 * q3)) = _
  rw [h, invSqrt_one]
  ext <;> simp

lemma correctedRate6D_fixed (m : Mahony) (ax ay az : ℝ)
    (hq : normSq m.Quaternions = 1)
    (hix : m.integralFBx = 0) (hiy : m.integralFBy = 0) (hiz : m.integralFBz = 0)
    (hax : ax = 2 * halfvx m.Quaternions.q0 m.Quaternions.q1 m.Quaternions.q2 m.Quaternions.q3)
    (hay : ay = 2 * halfvy m.Quaternions.q0 m.Quaternions.q1 m.Quaternions.q2 m.Quaternions.q3)
    (haz : az = 2 * halfvz m.Quaternions.q0 m.Quaternions.q1 m.Quaternions.q2 m.Quaternions.q3) :
    correctedRate6D m 0 0 0 ax ay az = (0, 0, 0) := by
  have hq' : m.Quaternions.q0 * m.Quaternions.q0 + m.Quaternions.q1 * m.Quaternions.q1 +
      m.Quaternions.q2 * m.Quaternions.q2 + m.Quaternions.q3 * m.Quaternions.q3 = 1 := hq
  have hv1 : halfvx m.Quaternions.q0 m.Quaternions.q1 m.Quaternions.q2 m.Quaternions.q3 =
      ax / 2 := by linarith
  have hv2 : halfvy m.Quaternions.q0 m.Quaternions.q1 m.Quaternions.q2 m.Quaternions.q3 =
      ay / 2 := by linarith
  have hv3 : halfvz m.Quaternions.q0 m.Quaternions.q1 m.Quaternions.q2 m.Quaternions.q3 =
      az / 2 := by linarith
  by_cases hdeg : ax = 0 ∧ ay = 0 ∧ az = 0
  · simp only [correctedRate6D, if_pos hdeg]
  · have h4 := halfv_normSq m.Quaternions.q0 m.Quaternions.q1 m.Quaternions.q2 m.Quaternions.q3
    rw [hv1, hv2, hv3] at h4
    have hnorm : ax * ax + ay * ay + az * az = 1 := by
      linear_combination h4 + 4 * (m.Quaternions.q0 * m.Quaternions.q0 +
        m.Quaternions.q3 * m.Quaternions.q3) * hq'
    simp only [correctedRate6D, if_neg hdeg]
    rw [hnorm, invSqrt_one]
    simp only [mul_one]
    rw [hv1, hv2, hv3, hix, hiy, hiz]
    split_ifs <;> simp only [Prod.mk.injEq] <;> exact ⟨by ring, by ring, by ring⟩

lemma correctedRate9D_fixed (m : Mahony) (ax ay az mx my mz : ℝ)
    (hq : normSq m.Quaternions = 1)
    (hix : m.integralFBx = 0) (hiy : m.integralFBy = 0) (hiz : m.integralFBz = 0)
    (hax : ax = 2 * halfvx m.Quaternions.q0 m.Quaternions.q1 m.Quaternions.q2 m.Quaternions.q3)
    (hay : ay = 2 * halfvy m.Quaternions.q0 m.Quaternions.q1 m.Quaternions.q2 m.Quaternions.q3)
    (haz : az = 2 * halfvz m.Quaternions.q0 m.Quaternions.q1 m.Quaternions.q2 m.Quaternions.q3)
    (hmn : mx * mx + my * my + mz * mz = 1)
    (hmx : mx = 2 * halfwx m.Quaternions.q0 m.Quaternions.q1 m.Quaternions.q2 m.Quaternions.q3
      mx my mz)
    (hmy : my = 2 * halfwy m.Quaternions.q0 m.Quaternions.q1 m.Quaternions.q2 m.Quaternions.q3
      mx my mz)
    (hmz : mz = 2 * halfwz m.Quaternions.q0 m.Quaternions.q1 m.Quaternions.q2 m.Quaternions.q3
      mx my mz) :
    correctedRate9D m 0 0 0 ax ay az mx my mz = (0, 0, 0) := by
  have hq' : m.Quaternions.q0 * m.Quaternions.q0 + m.Quaternions.q1 * m.Quaternions.q1 +
      m.Quaternions.q2 * m.Quaternions.q2 + m.Quaternions.q3 * m.Quaternions.q3 = 1 := hq
  have hv1 : halfvx m.Quaternions.q0 m.Quaternions.q1 m.Quaternions.q2 m.Quaternions.q3 =
      ax / 2 := by linarith
  have hv2 : halfvy m.Quaternions.q0 m.Quaternions.q1 m.Quaternions.q2 m.Quaternions.q3 =
      ay / 2 := by linarith
  have hv3 : halfvz m.Quaternions.q0 m.Quaternions.q1 m.Quaternions.q2 m.Quaternions.q3 =
      az / 2 := by linarith
  have hw1 : halfwx m.Quaternions.q0 m.Quaternions.q1 m.Quaternions.q2 m.Quaternions.q3
      mx my mz = mx / 2 := by linarith
  have hw2 : halfwy m.Quaternions.q0 m.Quaternions.q1 m.Quaternions.q2 m.Quaternions.q3
      mx my mz = my / 2 := by linarith
  have hw3 : halfwz m.Quaternions.q0 m.Quaternions.q1 m.Quaternions.q2 m.Quaternions.q3
      mx my mz = mz / 2 := by linarith
  by_cases hdeg : ax = 0 ∧ ay = 0 ∧ az = 0
  · simp only [correctedRate9D, if_pos hdeg]
  · have h4 := halfv_normSq m.Quaternions.q0 m.Quaternions.q1 m.Quaternions.q2 m.Quaternions.q3
    rw [hv1, hv2, hv3] at h4
    have hnorm : ax * ax + ay * ay + az * az = 1 := by
      linear_combination h4 + 4 * (m.Quaternions.q0 * m.Quaternions.q0 +
        m.Quaternions.q3 * m.Quaternions.q3) * hq'
    simp only [correctedRate9D, if_neg hdeg]
    rw [hnorm, hmn, invSqrt_one]
    simp only [mul_one]
    rw [hv1, hv2, hv3, hw1, hw2, hw3, hix, hiy, hiz]
    split_ifs <;> simp only [Prod.mk.injEq] <;> exact ⟨by ring, by ring, by ring⟩

/-- C5: if the stored quaternion is unit-norm, the integral accumulator fields
are zero (as in every state the public API can produce), the gyro rate is
exactly zero, and the measured gravity — and, for the 9-axis update, magnetic
— direction exactly matches the direction predicted by the current quaternion
(so the cross-product error term vanishes), then the quaternion after the
update equals the quaternion before it. -/
theorem fixed_point_update (m : Mahony) (ax ay az mx my mz : ℝ)
    (hq : normSq m.Quaternions = 1)
    (hix : m.integralFBx = 0) (hiy : m.integralFBy = 0) (hiz : m.integralFBz = 0)
    (hax : ax = 2 * halfvx m.Quaternions.q0 m.Quaternions.q1 m.Quaternions.q2 m.Quaternions.q3)
    (hay : ay = 2 * halfvy m.Quaternions.q0 m.Quaternions.q1 m.Quaternions.q2 m.Quaternions.q3)
    (haz : az = 2 * halfvz m.Quaternions.q0 m.Quaternions.q1 m.Quaternions.q2 m.Quaternions.q3)
    (hmn : mx * mx + my * my + mz * mz = 1)
    (hmx : mx = 2 * halfwx m.Quaternions.q0 m.Quaternions.q1 m.Quaternions.q2 m.Quaternions.q3
      mx my mz)
    (hmy : my = 2 * halfwy m.Quaternions.q0 m.Quaternions.q1 m.Quaternions.q2 m.Quaternions.q3
      mx my mz)
    (hmz : mz = 2 * halfwz m.Quaternions.q0 m.Quaternions.q1 m.Quaternions.q2 m.Quaternions.q3
      mx my mz) :
    ((Update6D m 0 0 0 ax ay az).1.Quaternions = m.Quaternions ∧
     (Update6D m 0 0 0 ax ay az).2 = m.Quaternions) ∧
    ((Update9D m 0 0 0 ax ay az mx my mz).1.Quaternions = m.Quaternions ∧
     (Update9D m 0 0 0 ax ay az mx my mz).2 = m.Quaternions) := by
  have hq' : m.Quaternions.q0 * m.Quaternions.q0 + m.Quaternions.q1 * m.Quaternions.q1 +
      m.Quaternions.q2 * m.Quaternions.q2 + m.Quaternions.q3 * m.Quaternions.q3 = 1 := hq
  have h6 : correctedRate6D m 0 0 0 ax ay az = (0, 0, 0) :=
    correctedRate6D_fixed m ax ay az hq hix hiy hiz hax hay haz
  have h9 : correctedRate9D m 0 0 0 ax ay az mx my mz = (0, 0, 0) :=
    correctedRate9D_fixed m ax ay az mx my mz hq hix hiy hiz hax hay haz hmn hmx hmy hmz
  have hint : integrateAndNormalise m.Quaternions.q0 m.Quaternions.q1 m.Quaternions.q2
      m.Quaternions.q3 0 0 0 m.SampleFreq = m.Quaternions :=
    integrateAndNormalise_zero_rate _ _ _ _ _ hq'
  refine ⟨⟨?_, ?_⟩, ⟨?_, ?_⟩⟩ <;> simp only [Update6D, Update9D, h6, h9] <;> exact hint

/-- Witness for `fixed_point_update`: a fresh default-gain filter at the
identity orientation, gravity measured straight down the body z-axis and the
magnetic field along the body x-axis. -/
theorem fixed_point_update_witness :
    normSq (NewMahony 0.2 0.1 100).Quaternions = 1 ∧
    (NewMahony 0.2 0.1 100).integralFBx = 0 ∧
    (NewMahony 0.2 0.1 100).integralFBy = 0 ∧
    (NewMahony 0.2 0.1 100).integralFBz = 0 ∧
    (0 : ℝ) = 2 * halfvx (NewMahony 0.2 0.1 100).Quaternions.q0
      (NewMahony 0.2 0.1 100).Quaternions.q1 (NewMahony 0.2 0.1 100).Quaternions.q2
      (NewMahony 0.2 0.1 100).Quaternions.q3 ∧
    (0 : ℝ) = 2 * halfvy (NewMahony 0.2 0.1 100).Quaternions.q0
      (NewMahony 0.2 0.1 100).Quaternions.q1 (NewMahony 0.2 0.1 100).Quaternions.q2
      (NewMahony 0.2 0.1 100).Quaternions.q3 ∧
    (1 : ℝ) = 2 * halfvz (NewMahony 0.2 0.1 100).Quaternions.q0
      (NewMahony 0.2 0.1 100).Quaternions.q1 (NewMahony 0.2 0.1 100).Quaternions.q2
      (NewMahony 0.2 0.1 100).Quaternions.q3 ∧
    (1 : ℝ) * 1 + 0 * 0 + 0 * 0 = 1 ∧
    (1 : ℝ) = 2 * halfwx (NewMahony 0.2 0.1 100).Quaternions.q0
      (NewMahony 0.2 0.1 100).Quaternions.q1 (NewMahony 0.2 0.1 100).Quaternions.q2
      (NewMahony 0.2 0.1 100).Quaternions.q3 1 0 0 ∧
    (0 : ℝ) = 2 * halfwy (NewMahony 0.2 0.1 100).Quaternions.q0
      (NewMahony 0.2 0.1 100).Quaternions.q1 (NewMahony 0.2 0.1 100).Quaternions.q2
      (NewMahony 0.2 0.1 100).Quaternions.q3 1 0 0 ∧
    (0 : ℝ) = 2 * halfwz (NewMahony 0.2 0.1 100).Quaternions.q0
      (NewMahony 0.2 0.1 100).Quaternions.q1 (NewMahony 0.2 0.1 100).Quaternions.q2
      (NewMahony 0.2 0.1 100).Quaternions.q3 1 0 0 ∧
    (Update6D (NewMahony 0.2 0.1 100) 0 0 0 0 0 1).1.Quaternions =
      (NewMahony 0.2 0.1 100).Quaternions ∧
    (Update9D (NewMahony 0.2 0.1 100) 0 0 0 0 0 1 1 0 0).1.Quaternions =
      (NewMahony 0.2 0.1 100).Quaternions := by
  have hq : normSq (NewMahony 0.2 0.1 100).Quaternions = 1 := by
    norm_num [normSq, NewMahony]
  have hax : (0 : ℝ) = 2 * halfvx (NewMahony 0.2 0.1 100).Quaternions.q0
      (NewMahony 0.2 0.1 100).Quaternions.q1 (NewMahony 0.2 0.1 100).Quaternions.q2
      (NewMahony 0.2 0.1 100).Quaternions.q3 := by norm_num [halfvx, NewMahony]
  have hay : (0 : ℝ) = 2 * halfvy (NewMahony 0.2 0.1 100).Quaternions.q0
      (NewMahony 0.2 0.1 100).Quaternions.q1 (NewMahony 0.2 0.1 100).Quaternions.q2
      (NewMahony 0.2 0.1 100).Quaternions.q3 := by norm_num [halfvy, NewMahony]
  have haz : (1 : ℝ) = 2 * halfvz (NewMahony 0.2 0.1 100).Quaternions.q0
      (NewMahony 0.2 0.1 100).Quaternions.q1 (NewMahony 0.2 0.1 100).Quaternions.q2
      (NewMahony 0.2 0.1 100).Quaternions.q3 := by norm_num [halfvz, NewMahony]
  have hmn : (1 : ℝ) * 1 + 0 * 0 + 0 * 0 = 1 := by norm_num
  have hmx : (1 : ℝ) = 2 * halfwx (NewMahony 0.2 0.1 100).Quaternions.q0
      (NewMahony 0.2 0.1 100).Quaternions.q1 (NewMahony 0.2 0.1 100).Quaternions.q2
      (NewMahony 0.2 0.1 100).Quaternions.q3 1 0 0 := by
    norm_num [halfwx, bx, bz, hx, hy, NewMahony, Real.sqrt_one]
  have hmy : (0 : ℝ) = 2 * halfwy (NewMahony 0.2 0.1 100).Quaternions.q0
      (NewMahony 0.2 0.1 100).Quaternions.q1 (NewMahony 0.2 0.1 100).Quaternions.q2
      (NewMahony 0.2 0.1 100).Quaternions.q3 1 0 0 := by
    norm_num [halfwy, bx, bz, hx, hy, NewMahony, Real.sqrt_one]
  have hmz : (0 : ℝ) = 2 * halfwz (NewMahony 0.2 0.1 100).Quaternions.q0
      (NewMahony 0.2 0.1 100).Quaternions.q1 (NewMahony 0.2 0.1 100).Quaternions.q2
      (NewMahony 0.2 0.1 100).Quaternions.q3 1 0 0 := by
    norm_num [halfwz, bx, bz, hx, hy, NewMahony, Real.sqrt_one]
  have h := fixed_point_update (NewMahony 0.2 0.1 100) 0 0 1 1 0 0 hq rfl rfl rfl
    hax hay haz hmn hmx hmy hmz
  exact ⟨hq, rfl, rfl, rfl, hax, hay, haz, hmn, hmx, hmy, hmz, h.1.1, h.2.1⟩

/-- IEEE-style value carrier for the claims about non-finite float behaviour:
a finite real (exact arithmetic — rounding and overflow are not modelled), a
signed infinity, or NaN.  The real zero is unsigned, which is adequate for the
concrete runs below. -/
inductive FR where
  | fin (x : ℝ)
  | inf (pos : Bool)
  | nan

namespace FR

/-- IEEE addition on the carrier. -/
noncomputable def add : FR → FR → FR
  | nan, _ => nan
  | _, nan => nan
  | fin a, fin b => fin (a + b)
  | fin _, inf s => inf s
  | inf s, fin _ => inf s
  | inf s, inf t => if s = t then inf s else nan

/-- IEEE negation on the carrier. -/
noncomputable def neg : FR → FR
  | nan => nan
  | inf s => inf (!s)
  | fin a => fin (-a)

/-- IEEE subtraction on the carrier. -/
noncomputable def sub (a b : FR) : FR := add a (neg b)

/-- IEEE multiplication on the carrier; `0 · ±∞ = NaN`. -/
noncomputable def mul : FR → FR → FR
  | nan, _ => nan
  | _, nan => nan
  | fin a, fin b => fin (a * b)
  | fin a, inf s => if a = 0 then nan else if 0 < a then inf s else inf (!s)
  | inf s, fin a => if a = 0 then nan else if 0 < a then inf s else inf (!s)
  | inf s, inf t => inf (s = t)

/-- IEEE division on the carrier; a non-zero finite value divided by (unsigned)
zero is a signed infinity, `0/0 = NaN`, `x/±∞ = 0`, `±∞/±∞ = NaN`. -/
noncomputable def div : FR → FR → FR
  | nan, _ => nan
  | _, nan => nan
  | fin a, fin b =>
      if b = 0 then (if a = 0 then nan else if 0 < a then inf true else inf false)
      else fin (a / b)
  | fin _, inf _ => fin 0
  | inf s, fin b => if b = 0 then inf s else if 0 < b then inf s else inf (!s)
  | inf _, inf _ => nan

/-- IEEE square root on the carrier: NaN for negative inputs and `-∞`. -/
noncomputable def sqrt : FR → FR
  | nan => nan
  | inf true => inf true
  | inf false => nan
  | fin a => if a < 0 then nan else fin (Real.sqrt a)

/-- Go `x == 0.0` on the carrier (false for NaN and for the infinities). -/
def eqZero : FR → Prop
  | fin a => a = 0
  | inf _ => False
  | nan => False

noncomputable instance (x : FR) : Decidable (eqZero x) :=
  match x with
  | fin a => inferInstanceAs (Decidable (a = 0))
  | inf _ => inferInstanceAs (Decidable False)
  | nan => inferInstanceAs (Decidable False)

/-- Go `x > 0.0` on the carrier (false for NaN, true for `+∞`). -/
def gt0 : FR → Prop
  | fin a => 0 < a
  | inf s => s = true
  | nan => False

noncomputable instance (x : FR) : Decidable (gt0 x) :=
  match x with
  | fin a => inferInstanceAs (Decidable (0 < a))
  | inf s => inferInstanceAs (Decidable (s = true))
  | nan => inferInstanceAs (Decidable False)

end FR

/-- `invSqrt` (ahrs.go) over the IEEE carrier: `1 / math.Sqrt(x)`. -/
noncomputable def invSqrtF (x : FR) : FR := FR.div (FR.fin 1) (FR.sqrt x)

/-- `Update9D` (mahony.go lines 42-146) re-embedded over the IEEE carrier `FR`
for the non-finite-propagation claim; arithmetic follows the source expression
by expression.  Returns the quaternion state written back (which is also the
return value of the Go function). -/
noncomputable def Update9DF (twoKp twoKi integralFBx integralFBy integralFBz sampleFreq
    q0 q1 q2 q3 gx gy gz ax ay az mx my mz : FR) : FR × FR × FR × FR :=
  let g :=
    if FR.eqZero ax ∧ FR.eqZero ay ∧ FR.eqZero az then (gx, gy, gz)
    else
      let recipNormA := invSqrtF (FR.add (FR.add (FR.mul ax ax) (FR.mul ay ay)) (FR.mul az az))
      let axn := FR.mul ax recipNormA
      let ayn := FR.mul ay recipNormA
      let azn := FR.mul az recipNormA
      let recipNormM := invSqrtF (FR.add (FR.add (FR.mul mx mx) (FR.mul my my)) (FR.mul mz mz))
      let mxn := FR.mul mx recipNormM
      let myn := FR.mul my recipNormM
      let mzn := FR.mul mz recipNormM
      let q0q0 := FR.mul q0 q0
      let q0q1 := FR.mul q0 q1
      let q0q2 := FR.mul q0 q2
      let q0q3 := FR.mul q0 q3
      let q1q1 := FR.mul q1 q1
      let q1q2 := FR.mul q1 q2
      let q1q3 := FR.mul q1 q3
      let q2q2 := FR.mul q2 q2
      let q2q3 := FR.mul q2 q3
      let q3q3 := FR.mul q3 q3
      let hxv := FR.mul (FR.fin 2) (FR.add (FR.add
          (FR.mul mxn (FR.sub (FR.sub (FR.fin 0.5) q2q2) q3q3))
          (FR.mul myn (FR.sub q1q2 q0q3)))
          (FR.mul mzn (FR.add q1q3 q0q2)))
      let hyv := FR.mul (FR.fin 2) (FR.add (FR.add
          (FR.mul mxn (FR.add q1q2 q0q3))
          (FR.mul myn (FR.sub (FR.sub (FR.fin 0.5) q1q1) q3q3)))
          (FR.mul mzn (FR.sub q2q3 q0q1)))
      let bxv := FR.sqrt (FR.add (FR.mul hxv hxv) (FR.mul hyv hyv))
      let bzv := FR.mul (FR.fin 2) (FR.add (FR.add
          (FR.mul mxn (FR.sub q1q3 q0q2))
          (FR.mul myn (FR.add q2q3 q0q1)))
          (FR.mul mzn (FR.sub (FR.sub (FR.fin 0.5) q1q1) q2q2)))
      let halfvxv := FR.sub q1q3 q0q2
      let halfvyv := FR.add q0q1 q2q3
      let halfvzv := FR.add (FR.sub q0q0 (FR.fin 0.5)) q3q3
      let halfwxv := FR.add (FR.mul bxv (FR.sub (FR.sub (FR.fin 0.5) q2q2) q3q3))
        (FR.mul bzv (FR.sub q1q3 q0q2))
      let halfwyv := FR.add (FR.mul bxv (FR.sub q1q2 q0q3)) (FR.mul bzv (FR.add q0q1 q2q3))
      let halfwzv := FR.add (FR.mul bxv (FR.add q0q2 q1q3))
        (FR.mul bzv (FR.sub (FR.sub (FR.fin 0.5) q1q1) q2q2))
      let halfexv := FR.add (FR.sub (FR.mul ayn halfvzv) (FR.mul azn halfvyv))
        (FR.sub (FR.mul myn halfwzv) (FR.mul mzn halfwyv))
      let halfeyv := FR.add (FR.sub (FR.mul azn halfvxv) (FR.mul axn halfvzv))
        (FR.sub (FR.mul mzn halfwxv) (FR.mul mxn halfwzv))
      let halfezv := FR.add (FR.sub (FR.mul axn halfvyv) (FR.mul ayn halfvxv))
        (FR.sub (FR.mul mxn halfwyv) (FR.mul myn halfwxv))
      if FR.gt0 twoKi then
        let ifx := FR.add integralFBx
          (FR.mul (FR.mul twoKi halfexv) (FR.div (FR.fin 1) sampleFreq))
        let ify := FR.add integralFBy
          (FR.mul (FR.mul twoKi halfeyv) (FR.div (FR.fin 1) sampleFreq))
        let ifz := FR.add integralFBz
          (FR.mul (FR.mul twoKi halfezv) (FR.div (FR.fin 1) sampleFreq))
        (FR.add (FR.add gx ifx) (FR.mul twoKp halfexv),
         FR.add (FR.add gy ify) (FR.mul twoKp halfeyv),
         FR.add (FR.add gz ifz) (FR.mul twoKp halfezv))
      else
        (FR.add gx (FR.mul twoKp halfexv),
         FR.add gy (FR.mul twoKp halfeyv),
         FR.add gz (FR.mul twoKp halfezv))
  let gxs := FR.mul g.1 (FR.mul (FR.fin 0.5) (FR.div (FR.fin 1) sampleFreq))
  let gys := FR.mul g.2.1 (FR.mul (FR.fin 0.5) (FR.div (FR.fin 1) sampleFreq))
  let gzs := FR.mul g.2.2 (FR.mul (FR.fin 0.5) (FR.div (FR.fin 1) sampleFreq))
  let nq0 := FR.add q0
    (FR.sub (FR.sub (FR.neg (FR.mul q1 gxs)) (FR.mul q2 gys)) (FR.mul q3 gzs))
  let nq1 := FR.add q1
    (FR.sub (FR.add (FR.mul q0 gxs) (FR.mul q2 gzs)) (FR.mul q3 gys))
  let nq2 := FR.add q2
    (FR.add (FR.sub (FR.mul q0 gys) (FR.mul q1 gzs)) (FR.mul q3 gxs))
  let nq3 := FR.add q3
    (FR.sub (FR.add (FR.mul q0 gzs) (FR.mul q1 gys)) (FR.mul q2 gxs))
  let recipNorm := invSqrtF (FR.add (FR.add (FR.add (FR.mul nq0 nq0) (FR.mul nq1 nq1))
    (FR.mul nq2 nq2)) (FR.mul nq3 nq3))
  (FR.mul nq0 recipNorm, FR.mul nq1 recipNorm, FR.mul nq2 recipNorm, FR.mul nq3 recipNorm)

/-- C7: `invSqrt` computes exactly `1/√x` for positive `x` — by a real square
root followed by a division, not a bit-manipulation approximation — it is a
pure function of its argument, and at `x = 0` it returns positive infinity (a
non-finite value). -/
theorem invSqrt_contract :
    (∀ x : ℝ, 0 < x → invSqrtF (FR.fin x) = FR.fin (1 / Real.sqrt x)) ∧
    invSqrtF (FR.fin 0) = FR.inf true := by
  constructor
  · intro x hx0
    have h1 : ¬x < 0 := not_lt.mpr hx0.le
    have h2 : Real.sqrt x ≠ 0 := ne_of_gt (Real.sqrt_pos.mpr hx0)
    simp [invSqrtF, FR.sqrt, FR.div, h1, h2]
  · norm_num [invSqrtF, FR.sqrt, FR.div, Real.sqrt_zero]

/-- Witness for `invSqrt_contract` at `x = 4`. -/
theorem invSqrt_contract_witness :
    (0 : ℝ) < 4 ∧ invSqrtF (FR.fin 4) = FR.fin (1 / Real.sqrt 4) :=
  ⟨by norm_num, invSqrt_contract.1 4 (by norm_num)⟩

/-- C8: the accelerometer zero-vector check is the only guard in `Update9D`
and gates the whole correction block, magnetic correction included (first
conjunct, real model).  With a non-zero accelerometer and an exactly-zero
magnetometer there is no separate guard: the magnetometer normalisation
divides by zero and non-finite values propagate through the whole stored
quaternion state (second conjunct, IEEE carrier: default-gain filter at the
identity orientation, gravity down the body z-axis, zero magnetometer — every
stored quaternion component comes out NaN). -/
theorem mag_zero_not_guarded :
    (∀ (m : Mahony) (gx gy gz mx my mz : ℝ),
      correctedRate9D m gx gy gz 0 0 0 mx my mz = (gx, gy, gz)) ∧
    Update9DF (FR.fin 0.4) (FR.fin 0.2) (FR.fin 0) (FR.fin 0) (FR.fin 0) (FR.fin 100)
      (FR.fin 1) (FR.fin 0) (FR.fin 0) (FR.fin 0)
      (FR.fin 0) (FR.fin 0) (FR.fin 0)
      (FR.fin 0) (FR.fin 0) (FR.fin 1)
      (FR.fin 0) (FR.fin 0) (FR.fin 0) =
      (FR.nan, FR.nan, FR.nan, FR.nan) := by
  constructor
  · exact fun m gx gy gz mx my mz => correctedRate9D_zero_accel m gx gy gz mx my mz
  · norm_num [Update9DF, invSqrtF, FR.add, FR.sub, FR.neg, FR.mul, FR.div, FR.sqrt,
      FR.eqZero, FR.gt0, Real.sqrt_zero, Real.sqrt_one]

end Ahrs
